import Mathlib

/-!
# Overseer: update detection, fetch and parent watchdog

A shallow embedding of

* `fetcher/fetcher_http.go`  (`HTTP.Fetch`),
* `fetcher/fetcher_minio.go` (`Minio.Fetch`),
* `proc_slave_others.go`     (`slave.watchParent`),

together with theorems about the behaviour of these functions.

Conventions of the embedding.

* A Go `map[string]string` is an association list with unique keys that is
  read with `mapLookup` and written with `mapStore`.
* Everything outside the process (the network, the object store, the
  operating system) is a record of functions that is passed to the embedded
  function; theorems quantify over all such records.
* A Go error value is the text of its `Error()`.
* A call returns a record with the Go return values (`Outcome`), the
  receiver after the call and the list of external effects in program order.
-/

namespace Overseer

/-! ## Go maps -/

/-- A Go `map[string]string`. -/
abbrev StrMap := List (String × String)

/-- The Go expression `v, ok := m[k]`: `some v` when `ok`, otherwise `none`. -/
def mapLookup : StrMap → String → Option String
  | [], _ => none
  | (k', v') :: rest, k => if k' = k then some v' else mapLookup rest k

/-- The Go statement `m[k] = v`. -/
def mapStore : StrMap → String → String → StrMap
  | [], k, v => [(k, v)]
  | (k', v') :: rest, k, v =>
    if k' = k then (k, v) :: rest else (k', v') :: mapStore rest k v

/-! ## net/http -/

/-- A `http.Header`, read with `Get` and extended with `Add`. -/
abbrev Header := List (String × String)

/-- The method `Header.Get`: the first value stored for the key, `""` when
there is none. Keys are compared as written: the canonical spelling that
net/http gives to header names is left out, so a header here lists, for
each name that is asked for, the value that `Get` returns for it. -/
def headerGet : Header → String → String
  | [], _ => ""
  | (k', v') :: rest, k => if k' = k then v' else headerGet rest k

/-- The method `Header.Add`. -/
def headerAdd (hd : Header) (k v : String) : Header := hd ++ [(k, v)]

/-- A `http.Request` without body. -/
structure Request where
  Method : String
  URL : String
  Header : Header
deriving DecidableEq, Repr

/-- A `http.Response`; the body is the list of its bytes. -/
structure Response where
  StatusCode : Nat
  Header : Header
  Body : List Nat
deriving DecidableEq, Repr

/-- The constant `http.StatusOK`. -/
def StatusOK : Nat := 200

/-- What `HTTP.Fetch` calls outside the process. -/
structure Net where
  /-- The error of `url.Parse`, `none` when the URL parses. -/
  parseURL : String → Option String
  /-- The call `http.DefaultClient.Do`. -/
  Do : Request → Except String Response
  /-- The error of `gzip.NewReader` on a body (it reads the gzip header),
  `none` when the header is accepted. -/
  gzipHeaderError : List Nat → Option String

/-- The call `http.NewRequest(method, url, nil)` for one of the methods used
here (`HEAD`, `GET`): it fails exactly when the URL does not parse. -/
def NewRequest (net : Net) (method url : String) : Except String Request :=
  match net.parseURL url with
  | some err => .error err
  | none => .ok { Method := method, URL := url, Header := [] }

/-- The call `strings.HasSuffix`. -/
def HasSuffix (s suffix : String) : Bool := suffix.toList.isSuffixOf s.toList

/-! ## Results and effects -/

/-- The stream returned by a fetch. -/
inductive Reader where
  /-- The body of the GET response. -/
  | body (bytes : List Nat)
  /-- A `gzip.Reader` over the body of the GET response. -/
  | gzip (bytes : List Nat)
  /-- A `bytes.Reader` over a buffer. -/
  | buffer (bytes : List Nat)
deriving DecidableEq, Repr

/-- The Go return values `(io.Reader, error)` of a fetch, or a run-time
panic. -/
inductive Outcome where
  /-- The return `nil, nil`: skip, file match. -/
  | unchanged
  /-- The return `reader, nil`. -/
  | stream (r : Reader)
  /-- A return with a non-nil error. -/
  | error (msg : String)
  /-- A run-time panic: the call does not return. -/
  | panic (msg : String)
deriving DecidableEq, Repr

/-- An effect of `HTTP.Fetch` outside the process. -/
inductive Event where
  /-- The call `time.Sleep`. -/
  | sleep (d : Nat)
  /-- The call `http.DefaultClient.Do` with this request. -/
  | roundTrip (req : Request)
deriving DecidableEq, Repr

/-! ## fetcher_http.go -/

/-- The struct `HTTP`. `SecretFunc n` is the value of the `n`-th call of the
Go `SecretFunc` during one `Fetch`. `lasts` is the map that `Init` has
made non-nil. -/
structure HTTP where
  URL : String
  Interval : Nat
  CheckHeaders : List String
  SendHeaderInGet : Bool
  Secret : String
  SecretFunc : Nat → String
  delay : Bool
  lasts : StrMap

/-- The variable `defaultHTTPCheckHeaders`. -/
def defaultHTTPCheckHeaders : List String :=
  ["ETag", "If-Modified-Since", "Last-Modified", "Content-Length"]

/-- One round of the comparison loop of `Fetch` (lines 82 to 90) on the
pair `(matches, total)`. -/
def tallyStep (respHeader : Header) (lasts : StrMap) (mt : Nat × Nat)
    (header : String) : Nat × Nat :=
  let curr := headerGet respHeader header
  if curr ≠ "" then
    let matches_ :=
      match mapLookup lasts header with
      | some last => if last = curr then mt.1 + 1 else mt.1
      | none => mt.1
    (matches_, mt.2 + 1)
  else mt

/-- The comparison loop of `Fetch` (lines 81 to 90): the final
`(matches, total)`. -/
def headerTally (checkHeaders : List String) (respHeader : Header)
    (lasts : StrMap) : Nat × Nat :=
  checkHeaders.foldl (tallyStep respHeader lasts) (0, 0)

/-- One round of the commit loop of `Fetch` (lines 117 to 121). -/
def commitStep (respHeader : Header) (lasts : StrMap) (header : String) :
    StrMap :=
  let curr := headerGet respHeader header
  if curr ≠ "" then mapStore lasts header curr else lasts

/-- The commit loop of `Fetch` (lines 117 to 121). -/
def commitHeaders (checkHeaders : List String) (respHeader : Header)
    (lasts : StrMap) : StrMap :=
  checkHeaders.foldl (commitStep respHeader) lasts

/-- The result of one call of `HTTP.Fetch`. -/
structure HTTPRun where
  outcome : Outcome
  /-- The receiver after the call. -/
  state : HTTP
  /-- The external effects of the call, in program order. -/
  trace : List Event

/-- Lines 110 to 127 of `Fetch`: send the GET request, commit, return the
stream. -/
def HTTP.fetchGet (h : HTTP) (net : Net) (headresp : Response)
    (getreq : Request) (trace : List Event) : HTTPRun :=
  let trace := trace ++ [Event.roundTrip getreq]
  match net.Do getreq with
  | .error err =>
    ⟨.error ("GET request failed (" ++ err ++ ")"), h, trace⟩
  | .ok getresp =>
    if getresp.StatusCode ≠ StatusOK then
      ⟨.error ("GET request failed (status code " ++
        toString getresp.StatusCode ++ ")"), h, trace⟩
    else
      let h := { h with
        lasts := commitHeaders h.CheckHeaders headresp.Header h.lasts }
      if HasSuffix h.URL ".gz" ∧
          headerGet getresp.Header "Content-Encoding" ≠ "gzip" then
        match net.gzipHeaderError getresp.Body with
        | some err => ⟨.error err, h, trace⟩
        | none => ⟨.stream (.gzip getresp.Body), h, trace⟩
      else
        ⟨.stream (.body getresp.Body), h, trace⟩

/-- Lines 64 to 71 of `Fetch`: the headers put on the probe request. Go
ranges over `lasts` in an unspecified order; here the order is that of the
list. The request only reaches `Net.Do`, over which theorems quantify. -/
def HTTP.addProbeHeaders (h : HTTP) (request : Request) : Request :=
  let request :=
    if h.lasts.length ≠ 0 then
      h.lasts.foldl
        (fun (r : Request) kv => { r with Header := headerAdd r.Header kv.1 kv.2 })
        request
    else request
  if h.Secret ≠ "" then
    { request with Header := headerAdd request.Header h.Secret (h.SecretFunc 0) }
  else request

/-- The method `HTTP.Fetch`. The call `headresp.Body.Close()` has no effect
on the result and is left out. When `http.NewRequest` fails for the GET
request it returns a nil request, so line 104 dereferences nil when `Secret`
is set. When `gzip.NewReader` fails, line 124 returns its error. -/
def HTTP.Fetch (h : HTTP) (net : Net) : HTTPRun :=
  let trace : List Event := if h.delay then [Event.sleep h.Interval] else []
  let h := { h with delay := true }
  match NewRequest net "HEAD" h.URL with
  | .error err =>
    ⟨.error ("HEAD request creation failed (" ++ err ++ ")"), h, trace⟩
  | .ok request =>
    let request := h.addProbeHeaders request
    let trace := trace ++ [Event.roundTrip request]
    match net.Do request with
    | .error err => ⟨.error ("HEAD request failed (" ++ err ++ ")"), h, trace⟩
    | .ok headresp =>
      if headresp.StatusCode ≠ StatusOK then
        ⟨.error ("HEAD request failed (status code " ++
          toString headresp.StatusCode ++ ")"), h, trace⟩
      else
        let mt := headerTally h.CheckHeaders headresp.Header h.lasts
        if mt.1 = mt.2 then
          ⟨.unchanged, h, trace⟩
        else if h.SendHeaderInGet then
          h.fetchGet net headresp { request with Method := "GET" } trace
        else
          match NewRequest net "GET" h.URL with
          | .error err =>
            if h.Secret ≠ "" then
              ⟨.panic "invalid memory address or nil pointer dereference", h, trace⟩
            else
              ⟨.error ("GET request creation failed (" ++ err ++ ")"), h, trace⟩
          | .ok getreq =>
            let getreq :=
              if h.Secret ≠ "" then
                { getreq with Header := headerAdd getreq.Header h.Secret (h.SecretFunc 1) }
              else getreq
            h.fetchGet net headresp getreq trace

/-- The probe request that `Fetch` sends: `HEAD` on the URL with the headers
of `addProbeHeaders`. -/
def HTTP.headRequest (h : HTTP) : Request :=
  h.addProbeHeaders { Method := "HEAD", URL := h.URL, Header := [] }

/-- The number of GET requests sent during a run. -/
def countGet (trace : List Event) : Nat :=
  (trace.filter (fun e =>
    match e with
    | .roundTrip req => decide (req.Method = "GET")
    | .sleep _ => false)).length

/-! ## fetcher_minio.go -/

/-- The fields of `minio.ObjectInfo` that `Fetch` reads. -/
structure ObjectInfo where
  ETag : String
  Size : Int
deriving DecidableEq, Repr

/-- A `*minio.Object`: `Read n` is the result of `Read` on a buffer of `n`
bytes, the bytes written to the front of the buffer (their number is the
returned count) and the returned error. -/
structure Object where
  Read : Nat → List Nat × Option String

/-- What `Minio.Fetch` relies on outside its own code: the object store and
the allocator of the Go runtime. -/
structure Store where
  /-- The error of `minio.New` for a host, access key, secret key and the
  `Secure` option. -/
  New : String → String → String → Bool → Option String
  /-- The call `StatObject` for a bucket and key. -/
  StatObject : String → String → Except String ObjectInfo
  /-- The call `GetObject` for a bucket and key. -/
  GetObject : String → String → Except String Object
  /-- Whether the Go runtime allocates `make([]byte, n)`: above its
  allocation limit `make` panics (`makeslice: len out of range`), and without
  memory left the runtime stops the process. -/
  makeBytes : Nat → Bool

/-- An effect of `Minio.Fetch` outside the process. -/
inductive StoreEvent where
  | sleep (d : Nat)
  | statObject (bucket key : String)
  | getObject (bucket key : String)
  | read (len : Nat)
deriving DecidableEq, Repr

/-- The struct `Minio` (the field `client` is never used). -/
structure Minio where
  URL : String
  Access : String
  Secret : String
  Region : String
  Bucket : String
  Key : String
  UseSSL : Bool
  Interval : Nat
  HeadTimeout : Nat
  GetTimeout : Nat
  delay : Bool
  lastETag : String
deriving DecidableEq, Repr

/-- The result of one call of `Minio.Fetch`. -/
structure MinioRun where
  outcome : Outcome
  /-- The receiver after the call. -/
  state : Minio
  /-- The external effects of the call, in program order. -/
  trace : List StoreEvent
deriving DecidableEq, Repr

/-- The test `err != nil && err.Error() != "EOF"` of line 106: the error
when the test holds, `none` otherwise. -/
def nonEOF : Option String → Option String
  | some err => if err ≠ "EOF" then some err else none
  | none => none

/-- The method `Minio.Fetch`. The call `make([]byte, statInfo.Size)` of line
104 stops the call, before anything is read, for a negative size and for a
size that the runtime does not allocate (`Store.makeBytes`); both are the
outcome `panic`. The buffer is zero-filled and `Read` writes the bytes it
returns to its front. -/
def Minio.Fetch (s : Minio) (store : Store) : MinioRun :=
  let trace : List StoreEvent := if s.delay then [.sleep s.Interval] else []
  let s := { s with delay := true }
  match store.New s.URL s.Access s.Secret s.UseSSL with
  | some err => ⟨.error err, s, trace⟩
  | none =>
    let trace := trace ++ [.statObject s.Bucket s.Key]
    match store.StatObject s.Bucket s.Key with
    | .error err => ⟨.error err, s, trace⟩
    | .ok statInfo =>
      let etag := statInfo.ETag
      if s.lastETag = etag then
        ⟨.unchanged, s, trace⟩
      else
        let trace := trace ++ [.getObject s.Bucket s.Key]
        match store.GetObject s.Bucket s.Key with
        | .error err => ⟨.error err, s, trace⟩
        | .ok obj =>
          if statInfo.Size < 0 ∨ store.makeBytes statInfo.Size.toNat = false then
            ⟨.panic "makeslice: len out of range", s, trace⟩
          else
            let len := statInfo.Size.toNat
            let res := obj.Read len
            let read := res.1.length
            let buffer := (res.1 ++ List.replicate (len - read) 0).take len
            let trace := trace ++ [.read len]
            match nonEOF res.2 with
            | some err => ⟨.error err, s, trace⟩
            | none =>
              if (read : Int) ≠ statInfo.Size then
                ⟨.error "Error during file receiving, stat size and size from getObject do not match", s, trace⟩
              else
                ⟨.stream (.buffer buffer), { s with lastETag := etag }, trace⟩

/-- The number of `GetObject` calls during a run. -/
def countGetObject (trace : List StoreEvent) : Nat :=
  (trace.filter (fun e =>
    match e with
    | .getObject _ _ => true
    | _ => false)).length

/-! ## proc_slave_others.go -/

/-- An `*os.Process`. -/
structure Process where
  Pid : Int
deriving DecidableEq, Repr

/-- The fields of the struct `slave` that `watchParent` uses; `masterProc`
is `none` for the nil pointer. -/
structure slave where
  masterPid : Int
  masterProc : Option Process
deriving DecidableEq, Repr

/-- What `watchParent` calls outside the process. -/
structure OS where
  /-- The call `os.Getppid`. -/
  Getppid : Int
  /-- The call `os.FindProcess`. -/
  FindProcess : Int → Except String Process
  /-- The error of the `n`-th call (from 0) of `Signal(syscall.Signal(0))`
  on a handle, `none` for nil. -/
  Signal : Process → Nat → Option String

/-- Whether the subordinate process runs or has called `os.Exit`. -/
inductive ProcStatus where
  | running
  | exited (code : Int)
deriving DecidableEq, Repr

/-- The subordinate process as seen by the goroutine of `watchParent`. -/
structure Watch where
  sp : slave
  status : ProcStatus
  /-- The number of `Signal` calls made. -/
  probes : Nat
  /-- The number of `time.Sleep(2 * time.Second)` calls made. -/
  sleeps : Nat
  /-- The lines written with `log.Printf`. -/
  log : List String
deriving DecidableEq, Repr

/-- The method `watchParent` up to the `go` statement: the returned error,
the receiver after the call, and the goroutine's start when one is
started. -/
def slave.watchParent (sp : slave) (os : OS) : Option String × slave × Option Watch :=
  let sp := { sp with masterPid := os.Getppid }
  match os.FindProcess sp.masterPid with
  | .error err => (some ("master process: " ++ err), sp, none)
  | .ok proc =>
    let sp := { sp with masterProc := some proc }
    (none, sp, some ⟨sp, .running, 0, 0, []⟩)

/-- One round of the `for` loop of the goroutine (lines 22 to 29); a
process that has exited takes no further step. -/
def watchIter (os : OS) (w : Watch) : Watch :=
  match w.status with
  | .exited _ => w
  | .running =>
    match w.sp.masterProc with
    | none =>
      { w with status := .exited 2,
               log := w.log ++ ["panic: invalid memory address or nil pointer dereference"] }
    | some proc =>
      match os.Signal proc w.probes with
      | some err =>
        { w with probes := w.probes + 1,
                 log := w.log ++ ["signalling to master failed, exit code 1, err:" ++ err],
                 status := .exited 1 }
      | none =>
        { w with probes := w.probes + 1, sleeps := w.sleeps + 1 }

/-- The first `n` rounds of the goroutine's loop. -/
def watchLoop (os : OS) : Nat → Watch → Watch
  | 0, w => w
  | n + 1, w => watchLoop os n (watchIter os w)

/-- A watched header of the response agrees with the stored state: it is
absent from the response or stored with the response's value. -/
def headerAgrees (respHeader : Header) (lasts : StrMap) (header : String) : Prop :=
  headerGet respHeader header ≠ "" →
    mapLookup lasts header = some (headerGet respHeader header)

instance (respHeader : Header) (lasts : StrMap) (header : String) :
    Decidable (headerAgrees respHeader lasts header) := by
  unfold headerAgrees; infer_instance

/-- The effects of lines 55 to 57 of `Fetch`: the sleep of every call but
the first. -/
def HTTP.sleepTrace (h : HTTP) : List Event :=
  if h.delay then [Event.sleep h.Interval] else []

/-- The GET request that `Fetch` sends (lines 96 to 109): the probe request
with its method changed when `SendHeaderInGet`, otherwise a new request with
the secret header only. -/
def HTTP.getRequest (h : HTTP) : Request :=
  if h.SendHeaderInGet then
    { h.headRequest with Method := "GET" }
  else if h.Secret ≠ "" then
    { Method := "GET", URL := h.URL, Header := headerAdd [] h.Secret (h.SecretFunc 1) }
  else
    { Method := "GET", URL := h.URL, Header := [] }

/-! ## Scenarios -/

/-- A server that answers every HEAD request with `head` and every other
request with `get`, and a `gzip.NewReader` that reads the fixed ten-byte
gzip header: `EOF` on an empty body, `unexpected EOF` on a body shorter than
the header, `gzip: invalid header` when the magic bytes or the compression
method are wrong. -/
def serverNet (head get : Response) : Net :=
  { parseURL := fun _ => none,
    Do := fun req => if req.Method = "HEAD" then .ok head else .ok get,
    gzipHeaderError := fun body =>
      if body.length = 0 then some "EOF"
      else if body.length < 10 then some "unexpected EOF"
      else if body.take 3 = [0x1f, 0x8b, 8] then none
      else some "gzip: invalid header" }

/-- A fetcher with the default watch list and the given URL and stored
state, before its first call. -/
def fetcherWith (url : String) (lasts : StrMap) : HTTP :=
  { URL := url, Interval := 300, CheckHeaders := defaultHTTPCheckHeaders,
    SendHeaderInGet := false, Secret := "", SecretFunc := fun _ => "",
    delay := false, lasts := lasts }

/-- A response with status 200, the given headers and the given body. -/
def ok200 (header : Header) (body : List Nat) : Response :=
  { StatusCode := 200, Header := header, Body := body }

/-- An object store that holds one object: every stat reports `info`, and
every read of the object returns `data` and `err`. The runtime allocates up
to `2 ^ 48` bytes (the allocation limit on linux/amd64). -/
def storeWith (info : ObjectInfo) (data : List Nat) (err : Option String) : Store :=
  { New := fun _ _ _ _ => none,
    StatObject := fun _ _ => .ok info,
    GetObject := fun _ _ => .ok { Read := fun _ => (data, err) },
    makeBytes := fun n => decide (n ≤ 2 ^ 48) }

/-- A storage fetcher with the given stored ETag, before its first call. -/
def minioWith (lastETag : String) : Minio :=
  { URL := "localhost:9000", Access := "", Secret := "", Region := "ap-southeast-2",
    Bucket := "releases", Key := "app", UseSSL := false, Interval := 300,
    HeadTimeout := 5, GetTimeout := 300, delay := false, lastETag := lastETag }

/-- An operating system in which the parent has pid 41 and answers the
first `alive` signal-0 probes, after which every probe fails. -/
def osWith (alive : Nat) : OS :=
  { Getppid := 41,
    FindProcess := fun pid => .ok ⟨pid⟩,
    Signal := fun _ n => if n < alive then none else some "os: process already finished" }

/-! ## Lemmas on maps and the two loops of `HTTP.Fetch` -/

theorem mapLookup_mapStore (m : StrMap) (k v k' : String) :
    mapLookup (mapStore m k v) k' = if k = k' then some v else mapLookup m k' := by
  induction m with
  | nil => simp [mapStore, mapLookup]
  | cons p rest ih =>
    obtain ⟨a, b⟩ := p
    by_cases hak : a = k
    · subst hak
      by_cases hk : a = k' <;> simp [mapStore, mapLookup, hk]
    · by_cases hk : k = k'
      · subst hk
        simp [mapStore, mapLookup, hak, ih]
      · by_cases hak' : a = k'
        · subst hak'
          simp [mapStore, mapLookup, hak, hk]
        · simp [mapStore, mapLookup, hak, hak', hk, ih]

theorem tallyStep_agrees (respHeader : Header) (lasts : StrMap) (mt : Nat × Nat)
    (header : String) (hag : headerAgrees respHeader lasts header) :
    tallyStep respHeader lasts mt header = mt ∨
      tallyStep respHeader lasts mt header = (mt.1 + 1, mt.2 + 1) := by
  unfold tallyStep
  by_cases hc : headerGet respHeader header = ""
  · left; simp [hc]
  · right; simp [hc, hag hc]

theorem tallyStep_disagrees (respHeader : Header) (lasts : StrMap) (mt : Nat × Nat)
    (header : String) (hag : ¬ headerAgrees respHeader lasts header) :
    tallyStep respHeader lasts mt header = (mt.1, mt.2 + 1) := by
  unfold headerAgrees at hag
  push_neg at hag
  obtain ⟨hc, hne⟩ := hag
  unfold tallyStep
  simp only [hc, ne_eq, not_false_eq_true, if_true]
  cases hl : mapLookup lasts header with
  | none => rfl
  | some last =>
    have : last ≠ headerGet respHeader header := by
      intro h; apply hne; rw [hl, h]
    simp [this]

theorem tally_foldl (respHeader : Header) (lasts : StrMap) (l : List String) :
    ∀ mt : Nat × Nat, mt.1 ≤ mt.2 →
      (l.foldl (tallyStep respHeader lasts) mt).1 ≤
          (l.foldl (tallyStep respHeader lasts) mt).2 ∧
        ((l.foldl (tallyStep respHeader lasts) mt).1 =
            (l.foldl (tallyStep respHeader lasts) mt).2 ↔
          mt.1 = mt.2 ∧ ∀ header ∈ l, headerAgrees respHeader lasts header) := by
  induction l with
  | nil => intro mt hle; simp [hle]
  | cons a rest ih =>
    intro mt hle
    simp only [List.foldl_cons, List.mem_cons, forall_eq_or_imp]
    by_cases hag : headerAgrees respHeader lasts a
    · rcases tallyStep_agrees respHeader lasts mt a hag with h | h
      · rw [h]
        have := ih mt hle
        refine ⟨this.1, ?_⟩
        rw [this.2]
        tauto
      · rw [h]
        have := ih (mt.1 + 1, mt.2 + 1) (by simpa using hle)
        refine ⟨this.1, ?_⟩
        rw [this.2]
        simp only [add_left_inj]
        tauto
    · rw [tallyStep_disagrees respHeader lasts mt a hag]
      have := ih (mt.1, mt.2 + 1) (by simp; omega)
      refine ⟨this.1, ?_⟩
      rw [this.2]
      simp only
      constructor
      · intro h; omega
      · intro h; exact absurd h.2.1 hag

theorem headerTally_eq_iff (checkHeaders : List String) (respHeader : Header)
    (lasts : StrMap) :
    (headerTally checkHeaders respHeader lasts).1 =
        (headerTally checkHeaders respHeader lasts).2 ↔
      ∀ header ∈ checkHeaders, headerAgrees respHeader lasts header := by
  unfold headerTally
  rw [(tally_foldl respHeader lasts checkHeaders (0, 0) (le_refl _)).2]
  simp

theorem commitHeaders_lookup (respHeader : Header) (l : List String) :
    ∀ (lasts : StrMap) (k : String),
      mapLookup (commitHeaders l respHeader lasts) k =
        if k ∈ l ∧ headerGet respHeader k ≠ "" then some (headerGet respHeader k)
        else mapLookup lasts k := by
  induction l with
  | nil => intro lasts k; simp [commitHeaders]
  | cons a rest ih =>
    intro lasts k
    have ih' := ih (commitStep respHeader lasts a) k
    unfold commitHeaders at ih' ⊢
    rw [List.foldl_cons, ih']
    by_cases hk : k ∈ rest ∧ headerGet respHeader k ≠ ""
    · simp [hk]
    · rw [if_neg hk]
      unfold commitStep
      by_cases hc : headerGet respHeader a = ""
      · by_cases hak : k = a
        · subst hak; simp [hc]
        · have : ¬ ((k = a ∨ k ∈ rest) ∧ headerGet respHeader k ≠ "") := by tauto
          simp only [List.mem_cons]
          rw [if_neg this]; simp [hc]
      · simp only [ne_eq, hc, not_false_eq_true, if_true, mapLookup_mapStore, List.mem_cons]
        by_cases hak : a = k
        · subst hak; simp [hc]
        · have : ¬ ((k = a ∨ k ∈ rest) ∧ headerGet respHeader k ≠ "") := by
            rintro ⟨h1 | h1, h2⟩
            · exact hak h1.symm
            · exact hk ⟨h1, h2⟩
          rw [if_neg hak, if_neg this]

/-! ## Lemmas on `HTTP.Fetch` -/

theorem addProbeHeaders_foldl_Method (l : StrMap) :
    ∀ r : Request,
      (l.foldl (fun (r : Request) kv =>
        { r with Header := headerAdd r.Header kv.1 kv.2 }) r).Method = r.Method := by
  induction l with
  | nil => intro r; rfl
  | cons a rest ih => intro r; rw [List.foldl_cons, ih]

theorem headRequest_Method (h : HTTP) : h.headRequest.Method = "HEAD" := by
  unfold HTTP.headRequest HTTP.addProbeHeaders
  simp only
  split <;> split <;> simp only [addProbeHeaders_foldl_Method]

theorem getRequest_Method (h : HTTP) : h.getRequest.Method = "GET" := by
  unfold HTTP.getRequest
  split
  · rfl
  · split <;> rfl

/-- The run of `Fetch` after a probe that was answered with status 200. -/
theorem fetch_of_probe (h : HTTP) (net : Net) (headresp : Response)
    (hurl : net.parseURL h.URL = none)
    (hdo : net.Do h.headRequest = .ok headresp)
    (hst : headresp.StatusCode = StatusOK) :
    h.Fetch net =
      if (headerTally h.CheckHeaders headresp.Header h.lasts).1 =
          (headerTally h.CheckHeaders headresp.Header h.lasts).2 then
        ⟨.unchanged, { h with delay := true },
          h.sleepTrace ++ [Event.roundTrip h.headRequest]⟩
      else
        HTTP.fetchGet { h with delay := true } net headresp h.getRequest
          (h.sleepTrace ++ [Event.roundTrip h.headRequest]) := by
  have e : HTTP.addProbeHeaders { h with delay := true }
      { Method := "HEAD", URL := h.URL, Header := [] } = h.headRequest := rfl
  unfold HTTP.Fetch NewRequest
  simp only [hurl, e, hdo, hst, ne_eq, not_true_eq_false, if_false]
  split
  · rfl
  · unfold HTTP.getRequest HTTP.sleepTrace
    by_cases h1 : h.SendHeaderInGet = true
    · rw [if_pos h1, if_pos h1]
    · rw [if_neg h1, if_neg h1]

theorem fetchGet_trace (h : HTTP) (net : Net) (headresp : Response)
    (getreq : Request) (trace : List Event) :
    (h.fetchGet net headresp getreq trace).trace = trace ++ [Event.roundTrip getreq] := by
  unfold HTTP.fetchGet
  simp only
  split
  · rfl
  · split
    · rfl
    · split
      · split <;> rfl
      · rfl

theorem fetchGet_outcome (h : HTTP) (net : Net) (headresp : Response)
    (getreq : Request) (trace : List Event) :
    (∃ r, (h.fetchGet net headresp getreq trace).outcome = .stream r) ∨
      (∃ msg, (h.fetchGet net headresp getreq trace).outcome = .error msg) := by
  unfold HTTP.fetchGet
  simp only
  split
  · right; exact ⟨_, rfl⟩
  · split
    · right; exact ⟨_, rfl⟩
    · split
      · split
        · right; exact ⟨_, rfl⟩
        · left; exact ⟨_, rfl⟩
      · left; exact ⟨_, rfl⟩

theorem countGet_append (t1 t2 : List Event) :
    countGet (t1 ++ t2) = countGet t1 + countGet t2 := by
  simp [countGet]

theorem countGet_sleepTrace (h : HTTP) : countGet h.sleepTrace = 0 := by
  unfold HTTP.sleepTrace countGet
  by_cases hd : h.delay = true <;> simp [hd]

theorem countGet_probe (h : HTTP) :
    countGet (h.sleepTrace ++ [Event.roundTrip h.headRequest]) = 0 := by
  rw [countGet_append, countGet_sleepTrace]
  simp [countGet, headRequest_Method]

/-- The run of `Fetch` when every watched header present in the probe
response has a stored value equal to the response's value. -/
theorem fetch_unchanged_of_agree (h : HTTP) (net : Net) (headresp : Response)
    (hurl : net.parseURL h.URL = none)
    (hdo : net.Do h.headRequest = .ok headresp)
    (hst : headresp.StatusCode = StatusOK)
    (hall : ∀ header ∈ h.CheckHeaders, headerAgrees headresp.Header h.lasts header) :
    (h.Fetch net).outcome = .unchanged ∧ countGet (h.Fetch net).trace = 0 := by
  rw [fetch_of_probe h net headresp hurl hdo hst,
    if_pos ((headerTally_eq_iff _ _ _).2 hall)]
  exact ⟨rfl, countGet_probe h⟩

/-! ## `HTTP.Fetch`: the all-match rule -/

/-- C1: after a probe answered with status 200 in which every watched header
that is present has a stored value equal to the response's value, `Fetch`
returns `nil, nil` and sends no GET request: the probe is its only
request. -/
theorem HTTP_Fetch_all_match_unchanged (h : HTTP) (net : Net) (headresp : Response)
    (hurl : net.parseURL h.URL = none)
    (hdo : net.Do h.headRequest = .ok headresp)
    (hst : headresp.StatusCode = 200)
    (hall : ∀ header ∈ h.CheckHeaders, headerGet headresp.Header header ≠ "" →
      mapLookup h.lasts header = some (headerGet headresp.Header header)) :
    (h.Fetch net).outcome = .unchanged ∧
      countGet (h.Fetch net).trace = 0 ∧
      (h.Fetch net).trace = h.sleepTrace ++ [Event.roundTrip h.headRequest] := by
  rw [fetch_of_probe h net headresp hurl hdo hst,
    if_pos ((headerTally_eq_iff _ _ _).2 hall)]
  exact ⟨rfl, countGet_probe h, rfl⟩

/-- C1, scenario: stored ETag `v1`, the probe returns ETag `v1` and no other
watched header. -/
theorem HTTP_Fetch_all_match_unchanged_witness :
    ((fetcherWith "http://localhost/app" [("ETag", "v1")]).Fetch
        (serverNet (ok200 [("ETag", "v1")] []) (ok200 [] [1, 2, 3]))).outcome = .unchanged ∧
      countGet ((fetcherWith "http://localhost/app" [("ETag", "v1")]).Fetch
        (serverNet (ok200 [("ETag", "v1")] []) (ok200 [] [1, 2, 3]))).trace = 0 ∧
      ((fetcherWith "http://localhost/app" [("ETag", "v1")]).Fetch
        (serverNet (ok200 [("ETag", "v1")] []) (ok200 [] [1, 2, 3]))).trace =
        (fetcherWith "http://localhost/app" [("ETag", "v1")]).sleepTrace ++
          [Event.roundTrip (fetcherWith "http://localhost/app" [("ETag", "v1")]).headRequest] :=
  HTTP_Fetch_all_match_unchanged (fetcherWith "http://localhost/app" [("ETag", "v1")])
    (serverNet (ok200 [("ETag", "v1")] []) (ok200 [] [1, 2, 3])) (ok200 [("ETag", "v1")] [])
    rfl rfl rfl (by decide)

/-! ## `HTTP.Fetch`: the mismatch rule -/

/-- C2: after a probe answered with status 200 in which a watched header is
present with a value that is not the stored one (or with no stored value),
`Fetch` does not return `nil, nil`: it sends exactly one GET request, right
after the probe, and its result is the stream of the GET response or an
error of that retrieval. -/
theorem HTTP_Fetch_mismatch_retrieves (h : HTTP) (net : Net) (headresp : Response)
    (hurl : net.parseURL h.URL = none)
    (hdo : net.Do h.headRequest = .ok headresp)
    (hst : headresp.StatusCode = 200)
    (hmis : ∃ header ∈ h.CheckHeaders, headerGet headresp.Header header ≠ "" ∧
      mapLookup h.lasts header ≠ some (headerGet headresp.Header header)) :
    (h.Fetch net).outcome ≠ .unchanged ∧
      (h.Fetch net).trace =
        h.sleepTrace ++ [Event.roundTrip h.headRequest, Event.roundTrip h.getRequest] ∧
      h.getRequest.Method = "GET" ∧
      countGet (h.Fetch net).trace = 1 ∧
      ((∃ r, (h.Fetch net).outcome = .stream r) ∨
        (∃ msg, (h.Fetch net).outcome = .error msg)) ∧
      (∀ err, net.Do h.getRequest = .error err →
        (h.Fetch net).outcome = .error ("GET request failed (" ++ err ++ ")")) ∧
      (∀ getresp, net.Do h.getRequest = .ok getresp → getresp.StatusCode = 200 →
        (h.Fetch net).outcome = .stream (.body getresp.Body) ∨
        (h.Fetch net).outcome = .stream (.gzip getresp.Body) ∨
        ∃ err, net.gzipHeaderError getresp.Body = some err ∧
          (h.Fetch net).outcome = .error err) := by
  have hne : ¬ (headerTally h.CheckHeaders headresp.Header h.lasts).1 =
      (headerTally h.CheckHeaders headresp.Header h.lasts).2 := by
    rw [headerTally_eq_iff]
    intro hall
    obtain ⟨header, hmem, hpres, hdiff⟩ := hmis
    exact hdiff (hall header hmem hpres)
  rw [fetch_of_probe h net headresp hurl hdo hst, if_neg hne]
  have hout := fetchGet_outcome { h with delay := true } net headresp h.getRequest
    (h.sleepTrace ++ [Event.roundTrip h.headRequest])
  refine ⟨?_, ?_, getRequest_Method h, ?_, hout, ?_, ?_⟩
  · rcases hout with ⟨r, hr⟩ | ⟨msg, hm⟩
    · rw [hr]; simp
    · rw [hm]; simp
  · rw [fetchGet_trace]; simp
  · rw [fetchGet_trace, countGet_append, countGet_probe]
    simp [countGet, getRequest_Method]
  · intro err herr
    unfold HTTP.fetchGet
    simp only [herr]
  · intro getresp hget hgst
    unfold HTTP.fetchGet
    simp only [hget, hgst, StatusOK, ne_eq, not_true_eq_false, if_false]
    split
    · cases hg : net.gzipHeaderError getresp.Body with
      | none => right; left; rfl
      | some err => right; right; exact ⟨err, rfl, rfl⟩
    · left; rfl

/-- C2, scenario: stored ETag `v1`, the probe returns ETag `v2`. -/
theorem HTTP_Fetch_mismatch_retrieves_witness :
    ((fetcherWith "http://localhost/app" [("ETag", "v1")]).Fetch
        (serverNet (ok200 [("ETag", "v2")] []) (ok200 [] [1, 2, 3]))).outcome ≠ .unchanged ∧
      ((fetcherWith "http://localhost/app" [("ETag", "v1")]).Fetch
        (serverNet (ok200 [("ETag", "v2")] []) (ok200 [] [1, 2, 3]))).outcome =
          .stream (.body [1, 2, 3]) ∧
      countGet ((fetcherWith "http://localhost/app" [("ETag", "v1")]).Fetch
        (serverNet (ok200 [("ETag", "v2")] []) (ok200 [] [1, 2, 3]))).trace = 1 :=
  ⟨(HTTP_Fetch_mismatch_retrieves (fetcherWith "http://localhost/app" [("ETag", "v1")])
      (serverNet (ok200 [("ETag", "v2")] []) (ok200 [] [1, 2, 3])) (ok200 [("ETag", "v2")] [])
      rfl rfl rfl ⟨"ETag", by decide, by decide, by decide⟩).1,
    by decide, by decide⟩

/-! ## `HTTP.Fetch`: no watched header in the probe response -/

/-- C8, counterexample: no watched header is present in the probe response
(status 200, no headers), and `Fetch` returns `nil, nil` without sending a
GET request. -/
theorem HTTP_Fetch_none_present_counterexample :
    (serverNet (ok200 [] []) (ok200 [] [1, 2, 3])).Do
        (fetcherWith "http://localhost/app" [("ETag", "v1")]).headRequest =
        .ok (ok200 [] []) ∧
      (∀ header ∈ (fetcherWith "http://localhost/app" [("ETag", "v1")]).CheckHeaders,
        headerGet (ok200 [] []).Header header = "") ∧
      headerTally (fetcherWith "http://localhost/app" [("ETag", "v1")]).CheckHeaders
        (ok200 [] []).Header [("ETag", "v1")] = (0, 0) ∧
      ((fetcherWith "http://localhost/app" [("ETag", "v1")]).Fetch
        (serverNet (ok200 [] []) (ok200 [] [1, 2, 3]))).outcome = .unchanged ∧
      countGet ((fetcherWith "http://localhost/app" [("ETag", "v1")]).Fetch
        (serverNet (ok200 [] []) (ok200 [] [1, 2, 3]))).trace = 0 :=
  ⟨rfl, by decide, by decide, by decide, by decide⟩

/-- C8, amended: after a probe answered with status 200, `Fetch` returns
`nil, nil` exactly when every watched header present in the probe response
has a stored value equal to the response's value; in particular, when no
header of `CheckHeaders` is present (`total == 0`) `Fetch` returns
`nil, nil` and sends no GET request. -/
theorem HTTP_Fetch_none_present_unchanged (h : HTTP) (net : Net) (headresp : Response)
    (hurl : net.parseURL h.URL = none)
    (hdo : net.Do h.headRequest = .ok headresp)
    (hst : headresp.StatusCode = 200) :
    ((h.Fetch net).outcome = .unchanged ↔
        ∀ header ∈ h.CheckHeaders, headerGet headresp.Header header ≠ "" →
          mapLookup h.lasts header = some (headerGet headresp.Header header)) ∧
      ((∀ header ∈ h.CheckHeaders, headerGet headresp.Header header = "") →
        headerTally h.CheckHeaders headresp.Header h.lasts = (0, 0) ∧
        (h.Fetch net).outcome = .unchanged ∧
        countGet (h.Fetch net).trace = 0) := by
  have hiff : (h.Fetch net).outcome = .unchanged ↔
      ∀ header ∈ h.CheckHeaders, headerGet headresp.Header header ≠ "" →
        mapLookup h.lasts header = some (headerGet headresp.Header header) := by
    constructor
    · intro hout
      by_contra hall
      have hne : ¬ (headerTally h.CheckHeaders headresp.Header h.lasts).1 =
          (headerTally h.CheckHeaders headresp.Header h.lasts).2 := by
        rw [headerTally_eq_iff]; exact hall
      rw [fetch_of_probe h net headresp hurl hdo hst, if_neg hne] at hout
      rcases fetchGet_outcome { h with delay := true } net headresp h.getRequest
        (h.sleepTrace ++ [Event.roundTrip h.headRequest]) with ⟨r, hr⟩ | ⟨msg, hm⟩
      · rw [hr] at hout; cases hout
      · rw [hm] at hout; cases hout
    · intro hall
      exact (fetch_unchanged_of_agree h net headresp hurl hdo hst hall).1
  refine ⟨hiff, ?_⟩
  intro hnone
  have hall : ∀ header ∈ h.CheckHeaders, headerGet headresp.Header header ≠ "" →
      mapLookup h.lasts header = some (headerGet headresp.Header header) :=
    fun header hmem hpres => absurd (hnone header hmem) hpres
  refine ⟨?_, (fetch_unchanged_of_agree h net headresp hurl hdo hst hall).1,
    (fetch_unchanged_of_agree h net headresp hurl hdo hst hall).2⟩
  unfold headerTally
  have key : ∀ (l : List String) (mt : Nat × Nat),
      (∀ header ∈ l, headerGet headresp.Header header = "") →
      l.foldl (tallyStep headresp.Header h.lasts) mt = mt := by
    intro l
    induction l with
    | nil => intro mt _; rfl
    | cons a rest ih =>
      intro mt hl
      have ha : tallyStep headresp.Header h.lasts mt a = mt := by
        unfold tallyStep
        simp [hl a (List.mem_cons_self a rest)]
      rw [List.foldl_cons, ha]
      exact ih mt (fun x hx => hl x (List.mem_cons_of_mem a hx))
  exact key _ _ hnone

/-- C8, amended, scenario: the default watch list, a probe response with
status 200 and no headers. -/
theorem HTTP_Fetch_none_present_unchanged_witness :
    headerTally (fetcherWith "http://localhost/app" [("ETag", "v1")]).CheckHeaders
        (ok200 [] []).Header (fetcherWith "http://localhost/app" [("ETag", "v1")]).lasts =
        (0, 0) ∧
      ((fetcherWith "http://localhost/app" [("ETag", "v1")]).Fetch
        (serverNet (ok200 [] []) (ok200 [] [1, 2, 3]))).outcome = .unchanged ∧
      countGet ((fetcherWith "http://localhost/app" [("ETag", "v1")]).Fetch
        (serverNet (ok200 [] []) (ok200 [] [1, 2, 3]))).trace = 0 :=
  (HTTP_Fetch_none_present_unchanged (fetcherWith "http://localhost/app" [("ETag", "v1")])
    (serverNet (ok200 [] []) (ok200 [] [1, 2, 3])) (ok200 [] []) rfl rfl rfl).2 (by decide)

/-! ## `HTTP.Fetch`: headers present on one side only -/

/-- C9, counterexample: `Last-Modified` is watched and stored but absent
from the probe response, the only present header (ETag) matches, and
`Fetch` returns `nil, nil` without sending a GET request. -/
theorem HTTP_Fetch_stored_absent_counterexample :
    "Last-Modified" ∈
        (fetcherWith "http://localhost/app"
          [("ETag", "v1"), ("Last-Modified", "Mon")]).CheckHeaders ∧
      mapLookup [("ETag", "v1"), ("Last-Modified", "Mon")] "Last-Modified" = some "Mon" ∧
      headerGet (ok200 [("ETag", "v1")] []).Header "Last-Modified" = "" ∧
      ((fetcherWith "http://localhost/app" [("ETag", "v1"), ("Last-Modified", "Mon")]).Fetch
        (serverNet (ok200 [("ETag", "v1")] []) (ok200 [] [1, 2, 3]))).outcome = .unchanged ∧
      countGet ((fetcherWith "http://localhost/app"
          [("ETag", "v1"), ("Last-Modified", "Mon")]).Fetch
        (serverNet (ok200 [("ETag", "v1")] []) (ok200 [] [1, 2, 3]))).trace = 0 :=
  ⟨by decide, by decide, by decide, by decide, by decide⟩

/-- C9, amended: after a probe answered with status 200, a watched header
that is present in the probe response but has no stored value counts as
"does not match" (`total` grows, `matches` does not), so `Fetch` does not
return `nil, nil` and sends the GET request; a header that is absent from
the probe response is not compared at all, whatever is stored for it
(neither `matches` nor `total` changes). -/
theorem HTTP_Fetch_present_unstored_retrieves (h : HTTP) (net : Net) (headresp : Response)
    (hurl : net.parseURL h.URL = none)
    (hdo : net.Do h.headRequest = .ok headresp)
    (hst : headresp.StatusCode = 200) :
    (∀ header ∈ h.CheckHeaders, headerGet headresp.Header header ≠ "" →
        mapLookup h.lasts header = none →
        (∀ mt, tallyStep headresp.Header h.lasts mt header = (mt.1, mt.2 + 1)) ∧
        (h.Fetch net).outcome ≠ .unchanged ∧
        (h.Fetch net).trace =
          h.sleepTrace ++ [Event.roundTrip h.headRequest, Event.roundTrip h.getRequest] ∧
        h.getRequest.Method = "GET") ∧
      (∀ header mt, headerGet headresp.Header header = "" →
        tallyStep headresp.Header h.lasts mt header = mt) := by
  constructor
  · intro header hmem hpres hnone
    have hdis : ¬ headerAgrees headresp.Header h.lasts header := by
      intro hag
      have := hag hpres
      rw [hnone] at this
      cases this
    have hne : ¬ (headerTally h.CheckHeaders headresp.Header h.lasts).1 =
        (headerTally h.CheckHeaders headresp.Header h.lasts).2 := by
      rw [headerTally_eq_iff]
      intro hall
      exact hdis (hall header hmem)
    refine ⟨fun mt => tallyStep_disagrees _ _ mt header hdis, ?_, ?_, getRequest_Method h⟩
    · rw [fetch_of_probe h net headresp hurl hdo hst, if_neg hne]
      rcases fetchGet_outcome { h with delay := true } net headresp h.getRequest
        (h.sleepTrace ++ [Event.roundTrip h.headRequest]) with ⟨r, hr⟩ | ⟨msg, hm⟩
      · rw [hr]; simp
      · rw [hm]; simp
    · rw [fetch_of_probe h net headresp hurl hdo hst, if_neg hne, fetchGet_trace]
      simp
  · intro header mt habs
    unfold tallyStep
    simp [habs]

/-- C9, amended, scenario: nothing is stored, the probe returns ETag `v1`. -/
theorem HTTP_Fetch_present_unstored_retrieves_witness :
    ((fetcherWith "http://localhost/app" []).Fetch
        (serverNet (ok200 [("ETag", "v1")] []) (ok200 [] [1, 2, 3]))).outcome ≠ .unchanged ∧
      ((fetcherWith "http://localhost/app" []).Fetch
        (serverNet (ok200 [("ETag", "v1")] []) (ok200 [] [1, 2, 3]))).outcome =
          .stream (.body [1, 2, 3]) ∧
      ((fetcherWith "http://localhost/app" []).Fetch
        (serverNet (ok200 [("ETag", "v1")] []) (ok200 [] [1, 2, 3]))).state.lasts =
          [("ETag", "v1")] :=
  ⟨((HTTP_Fetch_present_unstored_retrieves (fetcherWith "http://localhost/app" [])
      (serverNet (ok200 [("ETag", "v1")] []) (ok200 [] [1, 2, 3])) (ok200 [("ETag", "v1")] [])
      rfl rfl rfl).1 "ETag" (by decide) (by decide) (by decide)).2.1,
    by decide, by decide⟩

/-! ## `HTTP.Fetch`: the stored state -/

/-- A call of `Fetch` that returns a stream has sent a probe that was
answered with status 200. -/
theorem fetch_stream_probe (h : HTTP) (net : Net) (r : Reader)
    (hs : (h.Fetch net).outcome = .stream r) :
    net.parseURL h.URL = none ∧
      ∃ headresp, net.Do h.headRequest = .ok headresp ∧ headresp.StatusCode = StatusOK := by
  have e : HTTP.addProbeHeaders { h with delay := true }
      { Method := "HEAD", URL := h.URL, Header := [] } = h.headRequest := rfl
  cases hp : net.parseURL h.URL with
  | some err =>
    exfalso
    unfold HTTP.Fetch NewRequest at hs
    simp only [hp] at hs
    cases hs
  | none =>
    refine ⟨rfl, ?_⟩
    cases hd : net.Do h.headRequest with
    | error err =>
      exfalso
      unfold HTTP.Fetch NewRequest at hs
      simp only [hp, e, hd] at hs
      cases hs
    | ok headresp =>
      refine ⟨headresp, rfl, ?_⟩
      by_contra hst
      unfold HTTP.Fetch NewRequest at hs
      simp only [hp, e, hd, ne_eq, hst, not_false_eq_true, if_true] at hs
      cases hs

/-- The stored state after `fetchGet`: committed when a stream is
returned. -/
theorem fetchGet_stream_state (h : HTTP) (net : Net) (headresp : Response)
    (getreq : Request) (trace : List Event) (r : Reader)
    (hs : (h.fetchGet net headresp getreq trace).outcome = .stream r) :
    (h.fetchGet net headresp getreq trace).state =
      { h with lasts := commitHeaders h.CheckHeaders headresp.Header h.lasts } := by
  unfold HTTP.fetchGet at hs ⊢
  simp only at hs ⊢
  split
  · rename_i err hd
    rw [hd] at hs
    cases hs
  · rename_i getresp hd
    rw [hd] at hs
    simp only at hs
    split
    · rename_i hst
      rw [if_pos hst] at hs
      cases hs
    · split
      · split <;> rfl
      · rfl

/-- C4: whenever `Fetch` returns a stream, the probe (the HEAD request) was
answered, and the state after the call is the state before the call with
`delay` set and `lasts` overwritten, for every watched header that is
present in the probe response, by the probe response's value; every other
entry of `lasts` is as before, and the resulting `lasts` differs from the
one before the call. -/
theorem HTTP_Fetch_commit_on_stream (h : HTTP) (net : Net) (r : Reader)
    (hs : (h.Fetch net).outcome = .stream r) :
    ∃ headresp, net.Do h.headRequest = .ok headresp ∧
      h.headRequest.Method = "HEAD" ∧
      (h.Fetch net).state =
        { h with delay := true,
                 lasts := commitHeaders h.CheckHeaders headresp.Header h.lasts } ∧
      (∀ k, mapLookup (h.Fetch net).state.lasts k =
        if k ∈ h.CheckHeaders ∧ headerGet headresp.Header k ≠ "" then
          some (headerGet headresp.Header k)
        else mapLookup h.lasts k) ∧
      (∃ k, mapLookup (h.Fetch net).state.lasts k ≠ mapLookup h.lasts k) ∧
      (h.Fetch net).state.lasts ≠ h.lasts := by
  obtain ⟨hurl, headresp, hdo, hst⟩ := fetch_stream_probe h net r hs
  have hfetch := fetch_of_probe h net headresp hurl hdo hst
  have hne : ¬ (headerTally h.CheckHeaders headresp.Header h.lasts).1 =
      (headerTally h.CheckHeaders headresp.Header h.lasts).2 := by
    intro heq
    rw [hfetch, if_pos heq] at hs
    cases hs
  rw [if_neg hne] at hfetch
  have hstate : (h.Fetch net).state =
      { h with delay := true,
               lasts := commitHeaders h.CheckHeaders headresp.Header h.lasts } := by
    rw [hfetch] at hs ⊢
    exact fetchGet_stream_state _ net headresp _ _ r hs
  have hlook : ∀ k, mapLookup (h.Fetch net).state.lasts k =
      if k ∈ h.CheckHeaders ∧ headerGet headresp.Header k ≠ "" then
        some (headerGet headresp.Header k)
      else mapLookup h.lasts k := by
    intro k
    rw [hstate]
    exact commitHeaders_lookup headresp.Header h.CheckHeaders h.lasts k
  have hdiff : ∃ k, mapLookup (h.Fetch net).state.lasts k ≠ mapLookup h.lasts k := by
    rw [headerTally_eq_iff] at hne
    push_neg at hne
    obtain ⟨header, hmem, hdis⟩ := hne
    unfold headerAgrees at hdis
    push_neg at hdis
    refine ⟨header, ?_⟩
    rw [hlook header, if_pos ⟨hmem, hdis.1⟩]
    exact fun heq => hdis.2 heq.symm
  refine ⟨headresp, hdo, headRequest_Method h, hstate, hlook, hdiff, ?_⟩
  intro heq
  obtain ⟨k, hk⟩ := hdiff
  exact hk (by rw [heq])

/-- C4, scenario: stored ETag `v1`, the probe returns ETag `v2`, the GET is
answered with status 200 (and with another ETag), the stored ETag becomes
`v2`. -/
theorem HTTP_Fetch_commit_on_stream_witness :
    ((fetcherWith "http://localhost/app" [("ETag", "v1")]).Fetch
        (serverNet (ok200 [("ETag", "v2")] []) (ok200 [("ETag", "v3")] [1, 2, 3]))).outcome =
        .stream (.body [1, 2, 3]) ∧
      ((fetcherWith "http://localhost/app" [("ETag", "v1")]).Fetch
        (serverNet (ok200 [("ETag", "v2")] []) (ok200 [("ETag", "v3")] [1, 2, 3]))).state.lasts =
        [("ETag", "v2")] ∧
      ∃ headresp,
        (serverNet (ok200 [("ETag", "v2")] []) (ok200 [("ETag", "v3")] [1, 2, 3])).Do
          (fetcherWith "http://localhost/app" [("ETag", "v1")]).headRequest = .ok headresp ∧
        ((fetcherWith "http://localhost/app" [("ETag", "v1")]).Fetch
          (serverNet (ok200 [("ETag", "v2")] [])
            (ok200 [("ETag", "v3")] [1, 2, 3]))).state.lasts ≠ [("ETag", "v1")] :=
  ⟨by decide, by decide,
    (HTTP_Fetch_commit_on_stream (fetcherWith "http://localhost/app" [("ETag", "v1")])
      (serverNet (ok200 [("ETag", "v2")] []) (ok200 [("ETag", "v3")] [1, 2, 3]))
      (.body [1, 2, 3]) (by decide)).elim
      (fun headresp hh => ⟨headresp, hh.1, hh.2.2.2.2.2⟩)⟩

/-- The calls of `Fetch` that leave `lasts` as it was: all but those that
return a stream and those that fail in `gzip.NewReader` on a `.gz` URL
after the GET was answered with status 200. -/
theorem HTTP_Fetch_lasts_kept (h : HTTP) (net : Net) :
    (h.Fetch net).state.lasts = h.lasts ∨
      (∃ r, (h.Fetch net).outcome = .stream r) ∨
      (HasSuffix h.URL ".gz" = true ∧
        ∃ getresp err, net.Do h.getRequest = .ok getresp ∧
          getresp.StatusCode = StatusOK ∧
          net.gzipHeaderError getresp.Body = some err ∧
          (h.Fetch net).outcome = .error err) := by
  cases hp : net.parseURL h.URL with
  | some err =>
    left
    unfold HTTP.Fetch NewRequest
    simp only [hp]
  | none =>
    have e : HTTP.addProbeHeaders { h with delay := true }
        { Method := "HEAD", URL := h.URL, Header := [] } = h.headRequest := rfl
    cases hd : net.Do h.headRequest with
    | error err =>
      left
      unfold HTTP.Fetch NewRequest
      simp only [hp, e, hd]
    | ok headresp =>
      by_cases hst : headresp.StatusCode = StatusOK
      · rw [fetch_of_probe h net headresp hp hd hst]
        split
        · left; rfl
        · unfold HTTP.fetchGet
          simp only
          cases hg : net.Do h.getRequest with
          | error err => left; rfl
          | ok getresp =>
            simp only
            split
            · left; rfl
            · rename_i hgst
              split
              · rename_i hgz
                cases hz : net.gzipHeaderError getresp.Body with
                | none => right; left; exact ⟨_, rfl⟩
                | some err =>
                  right; right
                  exact ⟨by simpa using hgz.1, getresp, err, rfl, not_not.mp hgst, hz, rfl⟩
              · right; left; exact ⟨_, rfl⟩
      · left
        unfold HTTP.Fetch NewRequest
        simp only [hp, e, hd, ne_eq, hst, not_false_eq_true, if_true]

/-- C3, failing input: the URL ends in `.gz`, ETag `v1` is stored, the probe
returns ETag `v2`, and the GET is answered with status 200 and a body that
is not a gzip stream. `Fetch` returns the error of `gzip.NewReader`, yet
`lasts` already holds ETag `v2`; the next call against the same probe
response returns `nil, nil` and sends no GET request. -/
theorem HTTP_Fetch_gzip_error_commits :
    ((fetcherWith "http://localhost/app.gz" [("ETag", "v1")]).Fetch
        (serverNet (ok200 [("ETag", "v2")] []) (ok200 [] [1, 2, 3]))).outcome =
        .error "unexpected EOF" ∧
      ((fetcherWith "http://localhost/app.gz" [("ETag", "v1")]).Fetch
        (serverNet (ok200 [("ETag", "v2")] []) (ok200 [] [1, 2, 3]))).state.lasts =
        [("ETag", "v2")] ∧
      ((fetcherWith "http://localhost/app.gz" [("ETag", "v1")]).Fetch
        (serverNet (ok200 [("ETag", "v2")] []) (ok200 [] [1, 2, 3]))).state.lasts ≠
        (fetcherWith "http://localhost/app.gz" [("ETag", "v1")]).lasts ∧
      ((((fetcherWith "http://localhost/app.gz" [("ETag", "v1")]).Fetch
          (serverNet (ok200 [("ETag", "v2")] []) (ok200 [] [1, 2, 3]))).state).Fetch
        (serverNet (ok200 [("ETag", "v2")] []) (ok200 [] [1, 2, 3]))).outcome = .unchanged ∧
      countGet ((((fetcherWith "http://localhost/app.gz" [("ETag", "v1")]).Fetch
          (serverNet (ok200 [("ETag", "v2")] []) (ok200 [] [1, 2, 3]))).state).Fetch
        (serverNet (ok200 [("ETag", "v2")] []) (ok200 [] [1, 2, 3]))).trace = 0 :=
  ⟨by decide, by decide, by decide, by decide, by decide⟩

/-! ## `Minio.Fetch` -/

/-- The effects of `Minio.Fetch` up to and including `GetObject`. -/
theorem minio_trace_no_read (s : Minio) (n : Nat) :
    StoreEvent.read n ∉
      ((if s.delay = true then [StoreEvent.sleep s.Interval] else []) ++
        [StoreEvent.statObject s.Bucket s.Key] ++ [StoreEvent.getObject s.Bucket s.Key]) := by
  by_cases hd : s.delay = true <;> simp [hd]

/-- The run of `Minio.Fetch` once the object was obtained and the buffer
allocated. -/
theorem minio_fetch_of_object (s : Minio) (store : Store) (statInfo : ObjectInfo)
    (obj : Object)
    (hnew : store.New s.URL s.Access s.Secret s.UseSSL = none)
    (hstat : store.StatObject s.Bucket s.Key = .ok statInfo)
    (hne : s.lastETag ≠ statInfo.ETag)
    (hget : store.GetObject s.Bucket s.Key = .ok obj)
    (hsize : 0 ≤ statInfo.Size)
    (halloc : store.makeBytes statInfo.Size.toNat = true) :
    (s.Fetch store).outcome =
        (match nonEOF (obj.Read statInfo.Size.toNat).2 with
        | some err => .error err
        | none =>
          if ((obj.Read statInfo.Size.toNat).1.length : Int) ≠ statInfo.Size then
            .error "Error during file receiving, stat size and size from getObject do not match"
          else
            .stream (.buffer (((obj.Read statInfo.Size.toNat).1 ++
              List.replicate
                (statInfo.Size.toNat - (obj.Read statInfo.Size.toNat).1.length) 0).take
              statInfo.Size.toNat))) ∧
      StoreEvent.read statInfo.Size.toNat ∈ (s.Fetch store).trace := by
  have hcond : ¬ (statInfo.Size < 0 ∨ store.makeBytes statInfo.Size.toNat = false) := by
    rw [halloc]
    simp only [Bool.true_eq_false, or_false, not_lt]
    exact hsize
  unfold Minio.Fetch
  simp only [hnew, hstat, hne, hget, if_false, hcond]
  cases hr : nonEOF (obj.Read statInfo.Size.toNat).2 with
  | some err => exact ⟨rfl, by simp⟩
  | none =>
    simp only
    split
    · exact ⟨rfl, by simp⟩
    · exact ⟨rfl, by simp⟩

/-- The run of `Minio.Fetch` when `make` does not return: a panic before
anything is read. -/
theorem minio_fetch_of_failed_make (s : Minio) (store : Store) (statInfo : ObjectInfo)
    (obj : Object)
    (hnew : store.New s.URL s.Access s.Secret s.UseSSL = none)
    (hstat : store.StatObject s.Bucket s.Key = .ok statInfo)
    (hne : s.lastETag ≠ statInfo.ETag)
    (hget : store.GetObject s.Bucket s.Key = .ok obj)
    (hmake : ¬ (0 ≤ statInfo.Size ∧ store.makeBytes statInfo.Size.toNat = true)) :
    (s.Fetch store).outcome = .panic "makeslice: len out of range" ∧
      StoreEvent.read statInfo.Size.toNat ∉ (s.Fetch store).trace := by
  have hcond : statInfo.Size < 0 ∨ store.makeBytes statInfo.Size.toNat = false := by
    by_cases hsize : 0 ≤ statInfo.Size
    · right
      cases hb : store.makeBytes statInfo.Size.toNat with
      | false => rfl
      | true => exact absurd ⟨hsize, hb⟩ hmake
    · left; exact not_le.mp hsize
  unfold Minio.Fetch
  simp only [hnew, hstat, hne, hget, if_false, hcond, if_true]
  exact ⟨trivial, minio_trace_no_read s _⟩

theorem nonEOF_eq_none (err : Option String) :
    nonEOF err = none ↔ err = none ∨ err = some "EOF" := by
  cases err with
  | none => simp [nonEOF]
  | some e =>
    by_cases he : e = "EOF" <;> simp [nonEOF, he]

/-- C5: when the stat succeeds with an ETag other than `lastETag` and
`GetObject` succeeds, `Fetch` returns a stream if and only if the read took
place and returned exactly `statInfo.Size` bytes with no error or with the
error `EOF`; the stream then holds the bytes read. A read that returned
fewer bytes than `statInfo.Size` is an error, with `EOF` or with no error at
all, and `EOF` at exactly the expected length is success. The read takes
place exactly when `make([]byte, statInfo.Size)` returns (the size is not
negative and the runtime allocates it); otherwise the call panics and
returns nothing. -/
theorem Minio_Fetch_exact_length (s : Minio) (store : Store) (statInfo : ObjectInfo)
    (obj : Object)
    (hnew : store.New s.URL s.Access s.Secret s.UseSSL = none)
    (hstat : store.StatObject s.Bucket s.Key = .ok statInfo)
    (hne : s.lastETag ≠ statInfo.ETag)
    (hget : store.GetObject s.Bucket s.Key = .ok obj) :
    ((∃ r, (s.Fetch store).outcome = .stream r) ↔
        StoreEvent.read statInfo.Size.toNat ∈ (s.Fetch store).trace ∧
          ((obj.Read statInfo.Size.toNat).1.length : Int) = statInfo.Size ∧
          ((obj.Read statInfo.Size.toNat).2 = none ∨
            (obj.Read statInfo.Size.toNat).2 = some "EOF")) ∧
      (StoreEvent.read statInfo.Size.toNat ∈ (s.Fetch store).trace →
        ((obj.Read statInfo.Size.toNat).1.length : Int) < statInfo.Size →
        ∃ msg, (s.Fetch store).outcome = .error msg) ∧
      (StoreEvent.read statInfo.Size.toNat ∈ (s.Fetch store).trace →
        ((obj.Read statInfo.Size.toNat).1.length : Int) = statInfo.Size →
        (obj.Read statInfo.Size.toNat).2 = none ∨
          (obj.Read statInfo.Size.toNat).2 = some "EOF" →
        (s.Fetch store).outcome = .stream (.buffer (obj.Read statInfo.Size.toNat).1)) ∧
      (StoreEvent.read statInfo.Size.toNat ∈ (s.Fetch store).trace ↔
        0 ≤ statInfo.Size ∧ store.makeBytes statInfo.Size.toNat = true) ∧
      (¬ (0 ≤ statInfo.Size ∧ store.makeBytes statInfo.Size.toNat = true) →
        (s.Fetch store).outcome = .panic "makeslice: len out of range") := by
  by_cases hmake : 0 ≤ statInfo.Size ∧ store.makeBytes statInfo.Size.toNat = true
  · obtain ⟨hout, hread⟩ :=
      minio_fetch_of_object s store statInfo obj hnew hstat hne hget hmake.1 hmake.2
    have hsize := hmake.1
    have hsucc : ((obj.Read statInfo.Size.toNat).1.length : Int) = statInfo.Size →
        (obj.Read statInfo.Size.toNat).2 = none ∨
          (obj.Read statInfo.Size.toNat).2 = some "EOF" →
        (s.Fetch store).outcome = .stream (.buffer (obj.Read statInfo.Size.toNat).1) := by
      intro hlen herr
      rw [hout, (nonEOF_eq_none _).2 herr]
      simp only [hlen, ne_eq, not_true_eq_false, if_false]
      have : statInfo.Size.toNat - (obj.Read statInfo.Size.toNat).1.length = 0 := by omega
      rw [this, List.replicate_zero, List.append_nil]
      congr 2
      exact List.take_of_length_le (by omega)
    refine ⟨⟨?_, fun hh => ⟨_, hsucc hh.2.1 hh.2.2⟩⟩, ?_, fun _ => hsucc,
      ⟨fun _ => hmake, fun _ => hread⟩, fun hn => absurd hmake hn⟩
    · rintro ⟨r, hr⟩
      rw [hout] at hr
      cases hn : nonEOF (obj.Read statInfo.Size.toNat).2 with
      | some err => rw [hn] at hr; cases hr
      | none =>
        rw [hn] at hr
        simp only at hr
        by_cases hlen : ((obj.Read statInfo.Size.toNat).1.length : Int) = statInfo.Size
        · exact ⟨hread, hlen, (nonEOF_eq_none _).1 hn⟩
        · rw [if_pos hlen] at hr; cases hr
    · intro _ hlt
      rw [hout]
      cases hn : nonEOF (obj.Read statInfo.Size.toNat).2 with
      | some err => exact ⟨err, rfl⟩
      | none =>
        simp only
        rw [if_pos (ne_of_lt hlt)]
        exact ⟨_, rfl⟩
  · obtain ⟨hout, hnoread⟩ :=
      minio_fetch_of_failed_make s store statInfo obj hnew hstat hne hget hmake
    refine ⟨⟨?_, fun hh => absurd hh.1 hnoread⟩, fun hr => absurd hr hnoread,
      fun hr => absurd hr hnoread,
      ⟨fun hr => absurd hr hnoread, fun hm => absurd hm hmake⟩, fun _ => hout⟩
    rintro ⟨r, hr⟩
    rw [hout] at hr; cases hr

/-- C5, scenario: the stat reports size 1024, the read takes place and
yields 1000 bytes with no error, the result is an error. -/
theorem Minio_Fetch_exact_length_witness :
    ∃ msg, ((minioWith "old").Fetch
      (storeWith ⟨"new", 1024⟩ (List.replicate 1000 0) none)).outcome = .error msg :=
  (Minio_Fetch_exact_length (minioWith "old")
    (storeWith ⟨"new", 1024⟩ (List.replicate 1000 0) none) ⟨"new", 1024⟩
    { Read := fun _ => (List.replicate 1000 0, none) } rfl rfl (by decide) rfl).2.1
    ((Minio_Fetch_exact_length (minioWith "old")
      (storeWith ⟨"new", 1024⟩ (List.replicate 1000 0) none) ⟨"new", 1024⟩
      { Read := fun _ => (List.replicate 1000 0, none) } rfl rfl (by decide) rfl).2.2.2.1.2
      ⟨by decide, by decide⟩)
    (by show ((List.replicate 1000 0).length : Int) < 1024
        rw [List.length_replicate]; decide)

/-- The scenario of a size that the runtime does not allocate: the stat
reports size `2 ^ 62`, `make` panics, nothing is read or returned, and
`lastETag` is as before. -/
theorem minio_huge_size_panics :
    ((minioWith "old").Fetch
        (storeWith ⟨"new", 4611686018427387904⟩ [1, 2, 3] none)).outcome =
        .panic "makeslice: len out of range" ∧
      ((minioWith "old").Fetch
        (storeWith ⟨"new", 4611686018427387904⟩ [1, 2, 3] none)).trace =
        [.statObject "releases" "app", .getObject "releases" "app"] ∧
      ((minioWith "old").Fetch
        (storeWith ⟨"new", 4611686018427387904⟩ [1, 2, 3] none)).state.lastETag = "old" :=
  ⟨by decide, by decide, by decide⟩

/-- C6: after every call of `Fetch`, `lastETag` is the ETag reported by the
stat if `Fetch` returned a stream, and is its value before the call in every
other outcome; no other field but `delay` changes. -/
theorem Minio_Fetch_commit_after_read (s : Minio) (store : Store) :
    (∀ r, (s.Fetch store).outcome = .stream r →
        ∃ statInfo, store.StatObject s.Bucket s.Key = .ok statInfo ∧
          (s.Fetch store).state = { s with delay := true, lastETag := statInfo.ETag }) ∧
      ((∀ r, (s.Fetch store).outcome ≠ .stream r) →
        (s.Fetch store).state = { s with delay := true }) := by
  unfold Minio.Fetch
  simp only
  cases hnew : store.New s.URL s.Access s.Secret s.UseSSL with
  | some err => exact ⟨fun r hr => (by cases hr), fun _ => rfl⟩
  | none =>
    cases hstat : store.StatObject s.Bucket s.Key with
    | error err => exact ⟨fun r hr => (by cases hr), fun _ => rfl⟩
    | ok statInfo =>
      simp only
      split
      · exact ⟨fun r hr => (by cases hr), fun _ => rfl⟩
      · cases hget : store.GetObject s.Bucket s.Key with
        | error err => exact ⟨fun r hr => (by cases hr), fun _ => rfl⟩
        | ok obj =>
          simp only
          split
          · exact ⟨fun r hr => (by cases hr), fun _ => rfl⟩
          · cases hn : nonEOF (obj.Read statInfo.Size.toNat).2 with
            | some err => exact ⟨fun r hr => (by cases hr), fun _ => rfl⟩
            | none =>
              simp only
              split
              · exact ⟨fun r hr => (by cases hr), fun _ => rfl⟩
              · exact ⟨fun r _ => ⟨statInfo, rfl, rfl⟩, fun hns => absurd rfl (hns _)⟩

/-- The scenario of a short read: the stat reports size 1024, the read
yields 1000 bytes with no error. -/
theorem minio_short_read_outcome :
    ((minioWith "old").Fetch
      (storeWith ⟨"new", 1024⟩ (List.replicate 1000 0) none)).outcome =
      .error "Error during file receiving, stat size and size from getObject do not match" := by
  rw [(minio_fetch_of_object (minioWith "old")
    (storeWith ⟨"new", 1024⟩ (List.replicate 1000 0) none) ⟨"new", 1024⟩
    { Read := fun _ => (List.replicate 1000 0, none) } rfl rfl (by decide) rfl (by decide)
    (by decide)).1]
  show (if ((List.replicate 1000 0).length : Int) ≠ 1024 then _ else _) = _
  rw [List.length_replicate, if_pos (by decide)]

/-- C6, scenario: the stat reports size 1024, the read yields 1000 bytes,
the result is an error and `lastETag` is as before. -/
theorem Minio_Fetch_commit_after_read_witness :
    ((minioWith "old").Fetch
        (storeWith ⟨"new", 1024⟩ (List.replicate 1000 0) none)).state.lastETag = "old" ∧
      ((minioWith "old").Fetch
        (storeWith ⟨"new", 1024⟩ (List.replicate 1000 0) none)).outcome =
        .error "Error during file receiving, stat size and size from getObject do not match" :=
  ⟨congrArg Minio.lastETag
      ((Minio_Fetch_commit_after_read (minioWith "old")
        (storeWith ⟨"new", 1024⟩ (List.replicate 1000 0) none)).2
        (fun r hr => by rw [minio_short_read_outcome] at hr; cases hr)),
    minio_short_read_outcome⟩

/-- C7: when the client is built and the stat succeeds, `Fetch` returns
`nil, nil` if and only if the ETag reported by the stat equals `lastETag`,
and then `GetObject` is not called (it is called once otherwise); when the
stat fails, `Fetch` returns the error of the stat, not `nil, nil`. -/
theorem Minio_Fetch_change_detection (s : Minio) (store : Store)
    (hnew : store.New s.URL s.Access s.Secret s.UseSSL = none) :
    (∀ statInfo, store.StatObject s.Bucket s.Key = .ok statInfo →
        ((s.Fetch store).outcome = .unchanged ↔ s.lastETag = statInfo.ETag) ∧
        (s.lastETag = statInfo.ETag → countGetObject (s.Fetch store).trace = 0) ∧
        (s.lastETag ≠ statInfo.ETag → countGetObject (s.Fetch store).trace = 1)) ∧
      (∀ err, store.StatObject s.Bucket s.Key = .error err →
        (s.Fetch store).outcome = .error err ∧
        (s.Fetch store).outcome ≠ .unchanged ∧
        countGetObject (s.Fetch store).trace = 0) := by
  have hsleep : countGetObject
      (if s.delay = true then [StoreEvent.sleep s.Interval] else []) = 0 := by
    by_cases hd : s.delay = true <;> simp [hd, countGetObject]
  have happ : ∀ t1 t2, countGetObject (t1 ++ t2) = countGetObject t1 + countGetObject t2 := by
    intro t1 t2; simp [countGetObject]
  have hstatEv : countGetObject [StoreEvent.statObject s.Bucket s.Key] = 0 := by
    simp [countGetObject]
  have hgetEv : countGetObject [StoreEvent.getObject s.Bucket s.Key] = 1 := by
    simp [countGetObject]
  have hreadEv : ∀ n, countGetObject [StoreEvent.read n] = 0 := by
    intro n; simp [countGetObject]
  constructor
  · intro statInfo hstat
    unfold Minio.Fetch
    simp only [hnew, hstat]
    by_cases he : s.lastETag = statInfo.ETag
    · rw [if_pos he]
      refine ⟨⟨fun _ => he, fun _ => rfl⟩, fun _ => ?_, fun hne => absurd he hne⟩
      simp only [happ, hsleep, hstatEv]
    · rw [if_neg he]
      cases hget : store.GetObject s.Bucket s.Key with
      | error err =>
        refine ⟨⟨fun hu => (by cases hu), fun h => absurd h he⟩,
          fun h => absurd h he, fun _ => ?_⟩
        simp only [happ, hsleep, hstatEv, hgetEv]
      | ok obj =>
        simp only
        split
        · refine ⟨⟨fun hu => (by cases hu), fun h => absurd h he⟩,
            fun h => absurd h he, fun _ => ?_⟩
          simp only [happ, hsleep, hstatEv, hgetEv]
        · cases hn : nonEOF (obj.Read statInfo.Size.toNat).2 with
          | some err =>
            refine ⟨⟨fun hu => (by cases hu), fun h => absurd h he⟩,
              fun h => absurd h he, fun _ => ?_⟩
            simp only [happ, hsleep, hstatEv, hgetEv, hreadEv]
          | none =>
            simp only
            split
            · refine ⟨⟨fun hu => (by cases hu), fun h => absurd h he⟩,
                fun h => absurd h he, fun _ => ?_⟩
              simp only [happ, hsleep, hstatEv, hgetEv, hreadEv]
            · refine ⟨⟨fun hu => (by cases hu), fun h => absurd h he⟩,
                fun h => absurd h he, fun _ => ?_⟩
              simp only [happ, hsleep, hstatEv, hgetEv, hreadEv]
  · intro err hstat
    unfold Minio.Fetch
    simp [hnew, hstat, happ, hsleep, hstatEv]

/-- C7, scenario: the stat reports the stored ETag. -/
theorem Minio_Fetch_change_detection_witness :
    ((minioWith "same").Fetch
        (storeWith ⟨"same", 3⟩ [1, 2, 3] none)).outcome = .unchanged ∧
      countGetObject ((minioWith "same").Fetch
        (storeWith ⟨"same", 3⟩ [1, 2, 3] none)).trace = 0 :=
  ⟨(((Minio_Fetch_change_detection (minioWith "same")
      (storeWith ⟨"same", 3⟩ [1, 2, 3] none) rfl).1 ⟨"same", 3⟩ rfl).1).2 rfl,
    ((Minio_Fetch_change_detection (minioWith "same")
      (storeWith ⟨"same", 3⟩ [1, 2, 3] none) rfl).1 ⟨"same", 3⟩ rfl).2.1 rfl⟩

/-! ## `slave.watchParent` -/

theorem watchIter_sp (os : OS) (w : Watch) : (watchIter os w).sp = w.sp := by
  unfold watchIter
  split
  · rfl
  · split
    · rfl
    · split <;> rfl

theorem watchLoop_sp (os : OS) : ∀ (n : Nat) (w : Watch), (watchLoop os n w).sp = w.sp := by
  intro n
  induction n with
  | zero => intro w; rfl
  | succ n ih => intro w; rw [watchLoop, ih, watchIter_sp]

theorem watchLoop_exited (os : OS) (code : Int) :
    ∀ (n : Nat) (w : Watch), w.status = .exited code → watchLoop os n w = w := by
  intro n
  induction n with
  | zero => intro w _; rfl
  | succ n ih =>
    intro w hw
    have hstep : watchIter os w = w := by
      unfold watchIter
      rw [hw]
    rw [watchLoop, hstep]
    exact ih w hw

theorem watchLoop_add (os : OS) :
    ∀ (a b : Nat) (w : Watch), watchLoop os (a + b) w = watchLoop os b (watchLoop os a w) := by
  intro a
  induction a with
  | zero => intro b w; rw [Nat.zero_add]; rfl
  | succ a ih =>
    intro b w
    rw [Nat.add_right_comm, watchLoop, ih]
    rfl

theorem watchLoop_alive (os : OS) (proc : Process) :
    ∀ (n : Nat) (w : Watch), w.status = .running → w.sp.masterProc = some proc →
      (∀ i, w.probes ≤ i → i < w.probes + n → os.Signal proc i = none) →
      watchLoop os n w =
        { w with probes := w.probes + n, sleeps := w.sleeps + n } := by
  intro n
  induction n with
  | zero => intro w _ _ _; rfl
  | succ n ih =>
    intro w hrun hproc hsig
    have hstep : watchIter os w =
        { w with probes := w.probes + 1, sleeps := w.sleeps + 1 } := by
      unfold watchIter
      rw [hrun]
      simp only [hproc, hsig w.probes (le_refl _) (by omega)]
    have hrest := ih { w with probes := w.probes + 1, sleeps := w.sleeps + 1 } hrun hproc
      (fun i h1 h2 => hsig i (by simp only at h1; omega) (by simp only at h2; omega))
    rw [watchLoop, hstep, hrest]
    simp only [Nat.add_assoc, Nat.add_comm 1 n]

/-- C10: once `watchParent` has found the parent process, the goroutine
probes the handle captured at startup and nothing else. While every probe so
far has succeeded the process runs, with one probe and one sleep per round
and nothing logged. At the first probe that fails the process exits with
status 1 in that same round, without sleeping and without another probe,
and stays exited. No round changes `masterPid` or `masterProc`. -/
theorem watchParent_exits_at_first_failed_probe (sp : slave) (os : OS) (proc : Process)
    (hfind : os.FindProcess os.Getppid = .ok proc) :
    ∃ w0, sp.watchParent os = (none, ⟨os.Getppid, some proc⟩, some w0) ∧
      (∀ n, (∀ i, i < n → os.Signal proc i = none) →
        (watchLoop os n w0).status = .running ∧
        (watchLoop os n w0).probes = n ∧
        (watchLoop os n w0).sleeps = n ∧
        (watchLoop os n w0).log = []) ∧
      (∀ k err, (∀ i, i < k → os.Signal proc i = none) → os.Signal proc k = some err →
        ∀ n, k < n →
          (watchLoop os n w0).status = .exited 1 ∧
          (watchLoop os n w0).probes = k + 1 ∧
          (watchLoop os n w0).sleeps = k ∧
          (watchLoop os n w0).log =
            ["signalling to master failed, exit code 1, err:" ++ err]) ∧
      (∀ n, (watchLoop os n w0).sp = ⟨os.Getppid, some proc⟩) := by
  refine ⟨⟨⟨os.Getppid, some proc⟩, .running, 0, 0, []⟩, ?_, ?_, ?_, ?_⟩
  · unfold slave.watchParent
    simp only [hfind]
  · intro n hsig
    rw [watchLoop_alive os proc n _ rfl rfl (fun i _ h2 => hsig i (by simpa using h2))]
    simp
  · intro k err hsig hfail n hkn
    obtain ⟨m, rfl⟩ : ∃ m, n = k + (1 + m) := ⟨n - k - 1, by omega⟩
    rw [watchLoop_add, watchLoop_alive os proc k _ rfl rfl
      (fun i _ h2 => hsig i (by simpa using h2)), watchLoop_add]
    have hstep : watchLoop os 1
        ({ sp := ⟨os.Getppid, some proc⟩, status := .running, probes := 0 + k,
           sleeps := 0 + k, log := [] } : Watch) =
        { sp := ⟨os.Getppid, some proc⟩, status := .exited 1, probes := k + 1,
          sleeps := k, log := ["signalling to master failed, exit code 1, err:" ++ err] } := by
      simp only [watchLoop, watchIter, Nat.zero_add, hfail, List.nil_append]
    rw [hstep, watchLoop_exited os 1 m _ rfl]
    exact ⟨rfl, rfl, rfl, rfl⟩
  · intro n
    rw [watchLoop_sp]

/-- C10, scenario: the parent answers three probes and is gone at the
fourth; after ten rounds the process has exited with status 1 at its fourth
probe, after three sleeps. -/
theorem watchParent_exits_at_first_failed_probe_witness :
    ∃ w0, (⟨0, none⟩ : slave).watchParent (osWith 3) = (none, ⟨41, some ⟨41⟩⟩, some w0) ∧
      (watchLoop (osWith 3) 3 w0).status = .running ∧
      (watchLoop (osWith 3) 10 w0).status = .exited 1 ∧
      (watchLoop (osWith 3) 10 w0).probes = 4 ∧
      (watchLoop (osWith 3) 10 w0).sleeps = 3 ∧
      (watchLoop (osWith 3) 10 w0).sp = ⟨41, some ⟨41⟩⟩ :=
  (watchParent_exits_at_first_failed_probe ⟨0, none⟩ (osWith 3) ⟨41⟩ rfl).elim
    (fun w0 hw =>
      ⟨w0, hw.1, (hw.2.1 3 (by decide)).1,
        (hw.2.2.1 3 "os: process already finished" (by decide) rfl 10 (by decide)).1,
        (hw.2.2.1 3 "os: process already finished" (by decide) rfl 10 (by decide)).2.1,
        (hw.2.2.1 3 "os: process already finished" (by decide) rfl 10 (by decide)).2.2.1,
        hw.2.2.2 10⟩)

end Overseer
